import Mathlib

/-!
# Decision controller of the policy server: embedding and checked properties

Shallow embedding of `server/errors.go`, `server/controller/controller.go` and
`server/controller/diagnostics.go`.

Conventions of the embedding:

* a Go `interface` or function value that may be `nil` is an `Option`;
* a Go pointer that may be `nil` is an `Option` of the pointee;
* a Go `panic` is the `error` branch of `Except PanicValue`, or the `panic`
  field of an outcome record when the state reached so far matters;
* calls into collaborators that live outside the repository (the store, the
  compiler manager, the watcher, the evaluation engine) are answered by an
  explicit behaviour argument, and every such call is appended to a trace of
  operations in program order.
-/

set_option autoImplicit false

namespace Opa

/-! ## Values carried by Go `interface{}` -/

/-- Dynamic value held by a Go `interface{}` after JSON decoding. -/
inductive Value where
  | null
  | bool (b : Bool)
  | number (n : String)
  | str (s : String)
  | array (xs : List Value)
  | object (kvs : List (String × Value))

/-- Go map indexing `m[k]` on a `map[string]interface{}`: the stored value, or
the zero value `nil` when the key is absent. -/
def mapIndex (kvs : List (String × Value)) (k : String) : Value :=
  match kvs.find? (fun kv => kv.1 == k) with
  | some kv => kv.2
  | none => Value.null

/-- Error returned by a call into the store. `storage.IsNotFound` belongs to
the storage package; its verdict on the error is recorded with the error. -/
structure StoreError where
  notFound : Bool
  msg : String
  deriving DecidableEq, Repr

/-- Go `storage.IsNotFound`. -/
def StoreError.IsNotFound (e : StoreError) : Bool := e.notFound

/-- Values a Go `panic` is raised with in the embedded code. -/
inductive PanicValue where
  | message (s : String)
  | storeError (e : StoreError)
  | watcherError (msg : String)
  | nilDereference
  | indexOutOfRange
  deriving DecidableEq, Repr

/-! ## server/errors.go -/

namespace Server

def ModuleParseErr : String := "module_parse_error"

def EntryExistsErr : String := "entry_exists"

/-- Go struct `Error`. -/
structure Error where
  Code : String
  Message : String
  deriving DecidableEq, Repr

/-- Go struct `CompileError`; the compiler diagnostics are kept as their text. -/
structure CompileError where
  Errors : List String
  deriving DecidableEq, Repr

/-- Value of the Go interface `error`, by dynamic type. A pointer constructor
carries `none` for a nil pointer of that type, which is a non-nil interface
value in Go. `wrapped code nested` is a non-nil `*WrappedError`. -/
inductive GoError where
  | nil
  | errorPtr (p : Option Error)
  | wrappedNilPtr
  | wrapped (Code : String) (Nested : GoError)
  | compilePtr (p : Option CompileError)
  | foreign (msg : String)
  deriving DecidableEq, Repr

/-- Go `IsEntryExistsError`: the type switch selects `*Error`, then the field
`err.Code` is read through the pointer. -/
def IsEntryExistsError (err : GoError) : Except PanicValue Bool :=
  match err with
  | GoError.errorPtr p =>
    match p with
    | none => Except.error PanicValue.nilDereference
    | some e => if e.Code = EntryExistsErr then Except.ok true else Except.ok false
  | _ => Except.ok false

/-- Go `IsModuleParseError`: the type switch selects `*WrappedError`, then the
field `err.Code` is read through the pointer. -/
def IsModuleParseError (err : GoError) : Except PanicValue Bool :=
  match err with
  | GoError.wrappedNilPtr => Except.error PanicValue.nilDereference
  | GoError.wrapped code _ =>
    if code = ModuleParseErr then Except.ok true else Except.ok false
  | _ => Except.ok false

end Server

/-! ## Collaborators of the controller -/

/-- Handle of a `storage.Transaction`. -/
structure Transaction where
  id : Nat
  deriving DecidableEq, Repr

/-- Handle of a `storage.Store`. -/
structure Store where
  id : Nat
  deriving DecidableEq, Repr

/-- Handle of an `*ast.Compiler`. -/
structure Compiler where
  id : Nat
  deriving DecidableEq, Repr

/-- Handle of a `*watch.Watcher`. -/
structure Watcher where
  id : Nat
  deriving DecidableEq, Repr

/-- Handle of a `rego.PartialResult`. -/
structure PartialResult where
  id : Nat
  deriving DecidableEq, Repr

/-- Handle of a `metrics.Metrics` collector. -/
structure Metrics where
  id : Nat
  deriving DecidableEq, Repr

/-- Handle of an `ast.Value` (a parsed input document). -/
structure AstValue where
  text : String
  deriving DecidableEq, Repr

/-- Go `topdown.BufferTracer`, a slice of trace events kept as their text. -/
abbrev BufferTracer := List String

/-- Handle of a decision callback `func(context.Context, *Info)`. -/
structure DecisionLogger where
  id : Nat
  deriving DecidableEq, Repr

/-- Handle of a decision ID factory `func() string`. -/
structure IDFactory where
  id : Nat
  deriving DecidableEq, Repr

/-- Modelled from the spec: the interface `controller.Buffer` is declared
outside the available files; the spec gives its contract as the single method
`Push(decisionRecord)`. A buffer is a handle; pushes are recorded as events. -/
structure Buffer where
  id : Nat
  deriving DecidableEq, Repr

/-- Callbacks the controller hands to the compiler manager. -/
inductive CompilerTrigger where
  | migrateWatcher
  deriving DecidableEq, Repr

/-- Callbacks the controller puts in a `storage.TriggerConfig`. -/
inductive CommitTrigger where
  | reload
  deriving DecidableEq, Repr

/-- State of the `*plugins.Manager` the controller points to: the compiler
`GetCompiler` returns and the callbacks given to `RegisterCompilerTrigger`. -/
structure Manager where
  compiler : Option Compiler
  compilerTriggers : List CompilerTrigger
  deriving DecidableEq, Repr

/-- Go `(*plugins.Manager).GetCompiler`. -/
def Manager.GetCompiler (m : Manager) : Option Compiler := m.compiler

/-- Go `(*plugins.Manager).RegisterCompilerTrigger`. -/
def Manager.RegisterCompilerTrigger (m : Manager) (t : CompilerTrigger) : Manager :=
  { m with compilerTriggers := m.compilerTriggers ++ [t] }

/-- State of a `sync.RWMutex`. -/
structure RWMutex where
  writer : Bool
  readers : Nat
  deriving DecidableEq, Repr

/-- Error value returned by the controller to its caller. -/
inductive CtlError where
  | store (e : StoreError)
  | watch (msg : String)
  | eval (msg : String)
  | input (msg : String)
  deriving DecidableEq, Repr

/-- One operation performed by a controller method, in program order: a call on
the lock, on the store, on the manager or on the watcher, or an assignment to
one of the controller's shared fields. -/
inductive Op where
  | mtxLock
  | mtxUnlock
  | mtxRLock
  | mtxRUnlock
  | storeNewTransaction
  | storeRegister (txn : Transaction) (onCommit : CommitTrigger)
  | storeAbort (txn : Transaction)
  | storeCommit (txn : Transaction)
  | storeRead (txn : Transaction) (path : String)
  | managerRegisterCompilerTrigger (t : CompilerTrigger)
  | managerGetCompiler
  | watchNew (txn : Transaction)
  | watcherMigrate (txn : Transaction)
  | setWatcher
  | setPartials
  | setRevision
  deriving DecidableEq, Repr

/-- Operations on `mtx`. -/
def Op.isLockOp : Op → Bool
  | Op.mtxLock => true
  | Op.mtxUnlock => true
  | Op.mtxRLock => true
  | Op.mtxRUnlock => true
  | _ => false

/-- Assignments to the shared fields `partials`, `revision`, `watcher`. -/
def Op.isSharedWrite : Op → Bool
  | Op.setWatcher => true
  | Op.setPartials => true
  | Op.setRevision => true
  | _ => false

/-! ## server/controller/controller.go -/

/-- Go struct `Controller`. The controller is taken as configured: `store` and
`manager` are set (`WithStore`, `WithManager`), so calls through them do not
dereference nil. `partials` lists the entries of the Go map; a nil map and an
empty map both have no entry. -/
structure Controller where
  mtx : RWMutex
  partials : List (String × PartialResult)
  store : Store
  manager : Manager
  watcher : Option Watcher
  decisionIDFactory : Option IDFactory
  diagnostics : Option Buffer
  revision : String
  errLimit : Int
  logger : Option DecisionLogger
  deriving DecidableEq, Repr

/-- Lookup `partials[query]` with the comma-ok form. -/
def Controller.findPartial (c : Controller) (query : String) : Option PartialResult :=
  (c.partials.find? (fun kv => kv.1 == query)).map (fun kv => kv.2)

/-- What a controller method leaves behind: the controller state, the
operations performed, and either the returned value or the panic raised. -/
structure Outcome (α : Type) where
  ctrl : Controller
  ops : List Op
  result : Except PanicValue α

/-- Answers of the collaborators to the calls `Init` makes, in the Go
convention that a failing call returns a non-nil error. `watch.New` returns a
nil watcher together with its error. -/
structure InitBehaviour where
  newTransaction : Except StoreError Transaction
  register : Option StoreError
  watchNew : Except String Watcher
  commit : Option StoreError

/-- Go `(*Controller).GetCompiler`. -/
def Controller.GetCompiler (c : Controller) : Option Compiler :=
  c.manager.GetCompiler

/-- Go `(*Controller).GetStore`. -/
def Controller.GetStore (c : Controller) : Store := c.store

/-- Go `(*Controller).GetDiagnostics`. -/
def Controller.GetDiagnostics (c : Controller) : Option Buffer := c.diagnostics

/-- Go `(*Controller).Init`. The returned value is the `error` result, `none`
for nil. -/
def Controller.Init (c : Controller) (b : InitBehaviour) : Outcome (Option CtlError) :=
  match b.newTransaction with
  | Except.error e =>
    { ctrl := c, ops := [Op.storeNewTransaction], result := Except.ok (some (CtlError.store e)) }
  | Except.ok txn =>
    match b.register with
    | some e =>
      { ctrl := c
        ops := [Op.storeNewTransaction, Op.storeRegister txn CommitTrigger.reload,
                Op.storeAbort txn]
        result := Except.ok (some (CtlError.store e)) }
    | none =>
      let c1 := { c with manager := c.manager.RegisterCompilerTrigger CompilerTrigger.migrateWatcher }
      let ops1 := [Op.storeNewTransaction, Op.storeRegister txn CommitTrigger.reload,
                   Op.managerRegisterCompilerTrigger CompilerTrigger.migrateWatcher,
                   Op.managerGetCompiler, Op.watchNew txn, Op.setWatcher]
      match b.watchNew with
      | Except.error msg =>
        { ctrl := { c1 with watcher := none }
          ops := ops1
          result := Except.ok (some (CtlError.watch msg)) }
      | Except.ok w =>
        let c2 := { c1 with watcher := some w, partials := [] }
        { ctrl := c2
          ops := ops1 ++ [Op.setPartials, Op.storeCommit txn]
          result := Except.ok (b.commit.map CtlError.store) }

/-- The path `reload` reads. -/
def revisionPath : String := "/system/bundle/manifest/revision"

/-- Go `(*Controller).reload`. `read` is what `c.store.Read` returns for the
revision path: the value and the error (`none` for nil). -/
def Controller.reload (c : Controller) (txn : Transaction)
    (read : Value × Option StoreError) : Outcome Unit :=
  let ops0 := [Op.storeRead txn revisionPath]
  match read.2 with
  | none =>
    match read.1 with
    | Value.str revision =>
      { ctrl := { c with revision := revision, partials := [] }
        ops := ops0 ++ [Op.setRevision, Op.setPartials]
        result := Except.ok () }
    | _ =>
      { ctrl := c, ops := ops0, result := Except.error (PanicValue.message "bad revision value") }
  | some err =>
    if !err.IsNotFound then
      { ctrl := c, ops := ops0, result := Except.error (PanicValue.storeError err) }
    else
      { ctrl := { c with partials := [] }
        ops := ops0 ++ [Op.setPartials]
        result := Except.ok () }

/-- Go `(*Controller).migrateWatcher`. `migrate` is what `c.watcher.Migrate`
returns: the watcher and the error message (`none` for nil). -/
def Controller.migrateWatcher (c : Controller) (txn : Transaction)
    (migrate : Option Watcher × Option String) : Outcome Unit :=
  let c1 := { c with watcher := migrate.1 }
  let ops := [Op.managerGetCompiler, Op.watcherMigrate txn, Op.setWatcher]
  match migrate.2 with
  | some msg => { ctrl := c1, ops := ops, result := Except.error (PanicValue.watcherError msg) }
  | none => { ctrl := c1, ops := ops, result := Except.ok () }

/-! ## The evaluation the controller composes (package `rego`) -/

/-- One expression of a `rego.Result`. -/
structure ExpressionValue where
  Value : Value
  Text : String

/-- Go `rego.Result`. -/
structure Result where
  Expressions : List ExpressionValue
  Bindings : List (String × Value)

/-- Go `rego.ResultSet`. -/
abbrev ResultSet := List Result

/-- Settings of a `rego.Rego` evaluation that the option functions used by the
controller assign. A field left unset keeps its zero value. -/
structure Rego where
  store : Option Store
  compiler : Option Compiler
  query : String
  parsedInput : Option AstValue
  rawInput : Value
  metrics : Option Metrics
  instrument : Bool
  tracer : Option BufferTracer
  txn : Option Transaction

/-- Zero value of `Rego`. -/
def Rego.zero : Rego :=
  { store := none, compiler := none, query := "", parsedInput := none,
    rawInput := Value.null, metrics := none, instrument := false, tracer := none,
    txn := none }

/-- Go `rego.New`: the options are applied in order to a zero `Rego`. -/
def Rego.New (options : List (Rego → Rego)) : Rego :=
  options.foldl (fun r option => option r) Rego.zero

def Rego.Store (s : Store) : Rego → Rego := fun r => { r with store := some s }

def Rego.Compiler (c : Option Compiler) : Rego → Rego := fun r => { r with compiler := c }

def Rego.Query (q : String) : Rego → Rego := fun r => { r with query := q }

def Rego.ParsedInput (x : Option AstValue) : Rego → Rego := fun r => { r with parsedInput := x }

def Rego.Metrics (m : Option Metrics) : Rego → Rego := fun r => { r with metrics := m }

def Rego.Instrument (yes : Bool) : Rego → Rego := fun r => { r with instrument := yes }

def Rego.Tracer (t : Option BufferTracer) : Rego → Rego := fun r => { r with tracer := t }

def Rego.Input (x : Value) : Rego → Rego := fun r => { r with rawInput := x }

def Rego.Transaction (txn : Option Transaction) : Rego → Rego := fun r => { r with txn := txn }

/-- Behaviour of `(*rego.Rego).Eval`: the result set and the error (`none` for
nil) it returns for a composed evaluation. -/
abbrev Evaluator := Rego → ResultSet × Option String

/-- Go struct `QueryRequest`. -/
structure QueryRequest where
  Query : String
  ParsedInput : Option AstValue
  Instrument : Bool
  Tracer : Option BufferTracer
  Transaction : Option Transaction
  RawInput : Value

/-- Go struct `QueryResponse`. -/
structure QueryResponse where
  Results : ResultSet
  Metrics : Option Metrics

/-- The local `rego` of `ExecQuery`; `m` is the collector `metrics.New()`
returned. -/
def Controller.ExecQuery.rego (c : Controller) (m : Metrics) (request : QueryRequest) : Rego :=
  Rego.New [
    Rego.Store c.store,
    Rego.Compiler c.GetCompiler,
    Rego.Query request.Query,
    Rego.ParsedInput request.ParsedInput,
    Rego.Metrics (some m),
    Rego.Instrument request.Instrument,
    Rego.Tracer request.Tracer,
    Rego.Input request.RawInput,
    Rego.Transaction request.Transaction]

/-- Go `(*Controller).ExecQuery`. -/
def Controller.ExecQuery (eval : Evaluator) (c : Controller) (m : Metrics)
    (request : QueryRequest) : QueryResponse × Option CtlError :=
  let out := eval (Controller.ExecQuery.rego c m request)
  ({ Results := out.1, Metrics := some m }, out.2.map CtlError.eval)

/-- The local `rego` of `TxnExecQuery`; `m` is the collector `metrics.New()`
returned. The parameter `txn` does not occur in the Go body. -/
def Controller.TxnExecQuery.rego (c : Controller) (m : Metrics) (_txn : Option Transaction)
    (request : QueryRequest) : Rego :=
  Rego.New [
    Rego.Store c.store,
    Rego.Compiler c.GetCompiler,
    Rego.Query request.Query,
    Rego.ParsedInput request.ParsedInput,
    Rego.Metrics (some m),
    Rego.Instrument request.Instrument,
    Rego.Tracer request.Tracer]

/-- Go `(*Controller).TxnExecQuery`. -/
def Controller.TxnExecQuery (eval : Evaluator) (c : Controller) (m : Metrics)
    (txn : Option Transaction) (request : QueryRequest) : QueryResponse × Option CtlError :=
  let out := eval (Controller.TxnExecQuery.rego c m txn request)
  ({ Results := out.1, Metrics := some m }, out.2.map CtlError.eval)

/-! ## server/controller/diagnostics.go -/

/-- Modelled from the spec: the struct `controller.Info` is declared outside
the available files; its fields are the decision record fields of the spec
(decision ID, revision, UTC timestamp, remote address, query text, input,
nullable results, nullable error, metrics, trace), under the names `Log`
assigns them by. The timestamp is a clock reading in UTC. -/
structure Info where
  Revision : String
  Timestamp : Nat
  DecisionID : String
  RemoteAddr : String
  Query : String
  Input : Value
  Results : Option Value
  Error : Server.GoError
  Metrics : Option Metrics
  Trace : BufferTracer

/-- Go struct `diagnosticsLogger`. -/
structure diagnosticsLogger where
  logger : Option DecisionLogger
  revision : String
  explain : Bool
  instrument : Bool
  buffer : Option Buffer
  deriving DecidableEq, Repr

/-- Zero value `diagnosticsLogger{}`. -/
def diagnosticsLogger.zero : diagnosticsLogger :=
  { logger := none, revision := "", explain := false, instrument := false, buffer := none }

/-- Go `diagnosticsLogger.Explain`. -/
def diagnosticsLogger.Explain (l : diagnosticsLogger) : Bool := l.explain

/-- Go `diagnosticsLogger.Instrument`. -/
def diagnosticsLogger.Instrument (l : diagnosticsLogger) : Bool := l.instrument

/-- Calls `Log` makes on its consumers, each with the record it passes. -/
inductive LogEvent where
  | callback (f : DecisionLogger) (info : Info)
  | push (b : Buffer) (info : Info)

/-- Go `diagnosticsLogger.Log`; `now` is the reading of `time.Now().UTC()`. The
result lists the calls made, in order. -/
def diagnosticsLogger.Log (l : diagnosticsLogger) (now : Nat)
    (decisionID remoteAddr query : String) (input : Value) (results : Option Value)
    (err : Server.GoError) (m : Option Metrics) (tracer : Option BufferTracer) : List LogEvent :=
  let info0 : Info :=
    { Revision := l.revision, Timestamp := now, DecisionID := decisionID,
      RemoteAddr := remoteAddr, Query := query, Input := input, Results := results,
      Error := err, Metrics := m, Trace := [] }
  let info : Info :=
    match tracer with
    | some t => { info0 with Trace := t }
    | none => info0
  let calls : List LogEvent :=
    match l.logger with
    | some f => [LogEvent.callback f info]
    | none => []
  match l.buffer with
  | none => calls
  | some b => calls ++ [LogEvent.push b info]

/-- The deferred function of `generateDiagnosticsLogger`, applied to the named
result on return. -/
def generateDiagnosticsLogger.deferred (c : Controller) (logger : diagnosticsLogger) :
    diagnosticsLogger :=
  { logger with revision := c.revision, logger := c.logger }

/-- The query `generateDiagnosticsLogger` evaluates. -/
def diagnosticsQuery : String := "data.system.diagnostics.config"

/-- The local `rego` of `generateDiagnosticsLogger`, composed once the input
map is built. -/
def generateDiagnosticsLogger.rego (c : Controller) (inputMap : List (String × Value)) : Rego :=
  Rego.New [
    Rego.Store c.store,
    Rego.Compiler c.GetCompiler,
    Rego.Query diagnosticsQuery,
    Rego.Input (Value.object inputMap)]

/-- Go `generateDiagnosticsLogger`. The body names the controller `s`
(`s.store`, `s.getCompiler()`, `s.diagnostics`) where the parameter is `c`;
both are read as the controller passed in. `makeDiagnosticsInput` is declared
outside the available files: `input` is what it returns, the map or the error.
Indexing `Expressions[0]` on an empty slice panics. -/
def generateDiagnosticsLogger (eval : Evaluator)
    (input : Except String (List (String × Value))) (c : Controller) :
    Except PanicValue diagnosticsLogger :=
  let ret := fun (l : diagnosticsLogger) =>
    (Except.ok (generateDiagnosticsLogger.deferred c l) : Except PanicValue diagnosticsLogger)
  match c.diagnostics with
  | none => ret diagnosticsLogger.zero
  | some _ =>
    match input with
    | Except.error _ => ret diagnosticsLogger.zero
    | Except.ok inputMap =>
      let out := eval (generateDiagnosticsLogger.rego c inputMap)
      match out.2 with
      | some _ => ret diagnosticsLogger.zero
      | none =>
        match out.1 with
        | [result] =>
          match result.Expressions with
          | [] => Except.error PanicValue.indexOutOfRange
          | e :: _ =>
            match e.Value with
            | Value.object config =>
              match mapIndex config "mode" with
              | Value.str mode =>
                if mode = "on" then
                  ret { diagnosticsLogger.zero with buffer := c.diagnostics }
                else if mode = "all" then
                  ret { diagnosticsLogger.zero with
                        buffer := c.diagnostics, instrument := true, explain := true }
                else ret diagnosticsLogger.zero
              | _ => ret diagnosticsLogger.zero
            | _ => ret diagnosticsLogger.zero
        | _ => ret diagnosticsLogger.zero

/-! ## Predicates used to state the properties -/

/-- The fields of the controller other than `partials`, `revision` and `mtx`
are the same in `c` and `d`. -/
def Controller.sameCollaborators (c d : Controller) : Prop :=
  d.store = c.store ∧ d.manager = c.manager ∧ d.watcher = c.watcher ∧
  d.errLimit = c.errLimit ∧ d.diagnostics = c.diagnostics ∧
  d.decisionIDFactory = c.decisionIDFactory ∧ d.logger = c.logger

/-- Scan of a trace for the write-lock discipline: `held` tells whether `mtx`
is held in write mode at this point. A shared write outside the lock, a second
`Lock`, an `Unlock` without `Lock`, or a trace ending with the lock held fails. -/
def writesUnderLockFrom : Bool → List Op → Bool
  | held, [] => !held
  | held, Op.mtxLock :: rest => !held && writesUnderLockFrom true rest
  | held, Op.mtxUnlock :: rest => held && writesUnderLockFrom false rest
  | held, op :: rest => (held || !op.isSharedWrite) && writesUnderLockFrom held rest

/-- Every write to the shared fields in the trace happens between a `Lock` and
the matching `Unlock` of `mtx`. -/
def writesUnderLock (ops : List Op) : Bool := writesUnderLockFrom false ops

/-- The transaction was closed within the trace: aborted or committed. -/
def closedIn (txn : Transaction) (ops : List Op) : Bool :=
  ops.contains (Op.storeAbort txn) || ops.contains (Op.storeCommit txn)

/-- The diagnostics configuration selects `mode`: a buffer is configured, the
input map was built, and the evaluation returned, without error, exactly one
result whose first expression value is a map holding the string `mode` under
the key `mode`. -/
def selectsMode (eval : Evaluator) (input : Except String (List (String × Value)))
    (c : Controller) (mode : String) : Prop :=
  c.diagnostics ≠ none ∧
  ∃ inputMap result e es config,
    input = Except.ok inputMap ∧
    eval (generateDiagnosticsLogger.rego c inputMap) = ([result], none) ∧
    result.Expressions = e :: es ∧
    e.Value = Value.object config ∧
    mapIndex config "mode" = Value.str mode

/-- Contract of the evaluator: every result carries the value of at least one
expression of the query. -/
def Evaluator.resultsHaveExpressions (eval : Evaluator) : Prop :=
  ∀ r result, result ∈ (eval r).1 → result.Expressions ≠ []

/-! ## Sample states -/

/-- A configured controller holding two cached partial results. -/
def sampleController : Controller :=
  { mtx := { writer := false, readers := 0 }
    partials := [("data.a.allow", { id := 1 }), ("data.b.allow", { id := 2 })]
    store := { id := 0 }
    manager := { compiler := some { id := 0 }, compilerTriggers := [] }
    watcher := some { id := 0 }
    decisionIDFactory := some { id := 0 }
    diagnostics := some { id := 0 }
    revision := "v1"
    errLimit := 10
    logger := some { id := 5 } }

/-- An evaluator returning one result whose only expression value is the map
with the given mode. -/
def modeEvaluator (mode : String) : Evaluator := fun _ =>
  ([{ Expressions := [{ Value := Value.object [("mode", Value.str mode)],
                        Text := diagnosticsQuery }],
      Bindings := [] }], none)

/-- An evaluator that fails. -/
def failingEvaluator : Evaluator := fun _ => ([], some "eval failed")

end Opa

/-! ## Properties -/

namespace Opa

open Server

/-! ### Error classification (`server/errors.go`) -/

/-- The classification predicates return for every error that is not a nil
pointer of the type they select. -/
theorem classification_returns (err : GoError) :
    (err ≠ GoError.errorPtr none → ∃ b, IsEntryExistsError err = Except.ok b) ∧
    (err ≠ GoError.wrappedNilPtr → ∃ b, IsModuleParseError err = Except.ok b) := by
  constructor
  · intro h
    cases err with
    | errorPtr p =>
      cases p with
      | none => exact absurd rfl h
      | some e =>
        by_cases hc : e.Code = EntryExistsErr
        · exact ⟨true, by simp [IsEntryExistsError, hc]⟩
        · exact ⟨false, by simp [IsEntryExistsError, hc]⟩
    | _ => exact ⟨false, rfl⟩
  · intro h
    cases err with
    | wrappedNilPtr => exact absurd rfl h
    | wrapped code nested =>
      by_cases hc : code = ModuleParseErr
      · exact ⟨true, by simp [IsModuleParseError, hc]⟩
      · exact ⟨false, by simp [IsModuleParseError, hc]⟩
    | _ => exact ⟨false, rfl⟩

/-- C9, as stated, fails: on a nil `*Error` held in an `error` interface
`IsEntryExistsError` panics with a nil dereference, and on a nil
`*WrappedError` so does `IsModuleParseError`. -/
theorem classification_panics_on_nil_pointer :
    IsEntryExistsError (GoError.errorPtr none) = Except.error PanicValue.nilDereference ∧
    IsModuleParseError GoError.wrappedNilPtr = Except.error PanicValue.nilDereference := by
  exact ⟨rfl, rfl⟩

/-- C9, amended: `IsEntryExistsError` panics exactly on a nil `*Error` and
otherwise returns, `IsModuleParseError` panics exactly on a nil `*WrappedError`
and otherwise returns; the first returns true exactly for a non-nil `*Error`
with code `entry_exists`, the second exactly for a non-nil `*WrappedError` with
code `module_parse_error`; no error makes both return true. -/
theorem classification_by_shape_and_code (err : GoError) :
    ((err = GoError.errorPtr none ∧
        IsEntryExistsError err = Except.error PanicValue.nilDereference) ∨
      (err ≠ GoError.errorPtr none ∧ ∃ b, IsEntryExistsError err = Except.ok b)) ∧
    ((err = GoError.wrappedNilPtr ∧
        IsModuleParseError err = Except.error PanicValue.nilDereference) ∨
      (err ≠ GoError.wrappedNilPtr ∧ ∃ b, IsModuleParseError err = Except.ok b)) ∧
    (IsEntryExistsError err = Except.ok true ↔
      ∃ e : Error, err = GoError.errorPtr (some e) ∧ e.Code = "entry_exists") ∧
    (IsModuleParseError err = Except.ok true ↔
      ∃ nested, err = GoError.wrapped "module_parse_error" nested) ∧
    ¬ (IsEntryExistsError err = Except.ok true ∧ IsModuleParseError err = Except.ok true) := by
  refine ⟨?_, ?_, ?_, ?_, ?_⟩
  · by_cases h : err = GoError.errorPtr none
    · left; exact ⟨h, by rw [h]; rfl⟩
    · right; exact ⟨h, (classification_returns err).1 h⟩
  · by_cases h : err = GoError.wrappedNilPtr
    · left; exact ⟨h, by rw [h]; rfl⟩
    · right; exact ⟨h, (classification_returns err).2 h⟩
  · cases err with
    | errorPtr p =>
      cases p with
      | none => simp [IsEntryExistsError]
      | some e =>
        by_cases hc : e.Code = EntryExistsErr
        · simp only [IsEntryExistsError, hc, if_true, true_iff]
          exact ⟨e, rfl, hc⟩
        · simp only [IsEntryExistsError, hc, if_false]
          constructor
          · intro h; cases h
          · rintro ⟨e2, he, hc2⟩
            cases he
            exact absurd hc2 hc
    | _ => simp [IsEntryExistsError]
  · cases err with
    | wrapped code nested =>
      by_cases hc : code = ModuleParseErr
      · simp only [IsModuleParseError, hc, if_true, true_iff]
        exact ⟨nested, rfl⟩
      · simp only [IsModuleParseError, hc, if_false]
        constructor
        · intro h; cases h
        · rintro ⟨n2, he⟩
          cases he
          exact absurd rfl hc
    | _ => simp [IsModuleParseError]
  · rintro ⟨h1, h2⟩
    cases err <;> simp [IsEntryExistsError, IsModuleParseError] at h1 h2

/-! ### Reload, the commit trigger -/

/-- The outcome of `reload` by the kind of read: a string without error, a
NotFound error, another value without error, another error. -/
theorem reload_cases (c : Controller) (txn : Transaction) (read : Value × Option StoreError) :
    (read.2 = none ∧ (∃ s, read.1 = Value.str s ∧
        c.reload txn read =
          { ctrl := { c with revision := s, partials := [] }
            ops := [Op.storeRead txn revisionPath, Op.setRevision, Op.setPartials]
            result := Except.ok () })) ∨
    (∃ e, read.2 = some e ∧ e.IsNotFound = true ∧
        c.reload txn read =
          { ctrl := { c with partials := [] }
            ops := [Op.storeRead txn revisionPath, Op.setPartials]
            result := Except.ok () }) ∨
    (read.2 = none ∧ (∀ s, read.1 ≠ Value.str s) ∧
        c.reload txn read =
          { ctrl := c
            ops := [Op.storeRead txn revisionPath]
            result := Except.error (PanicValue.message "bad revision value") }) ∨
    (∃ e, read.2 = some e ∧ e.IsNotFound = false ∧
        c.reload txn read =
          { ctrl := c
            ops := [Op.storeRead txn revisionPath]
            result := Except.error (PanicValue.storeError e) }) := by
  obtain ⟨v, oe⟩ := read
  cases oe with
  | none =>
    cases v with
    | str s => left; exact ⟨rfl, s, rfl, rfl⟩
    | null => right; right; left; exact ⟨rfl, (fun s h => by cases h), rfl⟩
    | bool b => right; right; left; exact ⟨rfl, (fun s h => by cases h), rfl⟩
    | number n => right; right; left; exact ⟨rfl, (fun s h => by cases h), rfl⟩
    | array xs => right; right; left; exact ⟨rfl, (fun s h => by cases h), rfl⟩
    | object kvs => right; right; left; exact ⟨rfl, (fun s h => by cases h), rfl⟩
  | some e =>
    by_cases hn : e.IsNotFound = true
    · right; left
      exact ⟨e, rfl, hn, by simp [Controller.reload, hn]⟩
    · right; right; right
      have hf : e.IsNotFound = false := by simpa using hn
      exact ⟨e, rfl, hf, by simp [Controller.reload, hf]⟩

/-- C3: whenever the revision read yields a string without error, or fails
with NotFound, `reload` returns normally and leaves the partial-result cache
empty: no query text is found in it, whatever it held before. -/
theorem reload_discards_partials (c : Controller) (txn : Transaction)
    (read : Value × Option StoreError)
    (h : (read.2 = none ∧ ∃ s, read.1 = Value.str s) ∨
         (∃ e, read.2 = some e ∧ e.IsNotFound = true)) :
    (c.reload txn read).result = Except.ok () ∧
    (c.reload txn read).ctrl.partials = [] ∧
    ∀ query, (c.reload txn read).ctrl.findPartial query = none := by
  rcases reload_cases c txn read with ⟨_, s, _, hr⟩ | ⟨e, _, _, hr⟩ | ⟨h2, hns, _⟩ | ⟨e, h2, hf, _⟩
  · rw [hr]; exact ⟨rfl, rfl, fun _ => rfl⟩
  · rw [hr]; exact ⟨rfl, rfl, fun _ => rfl⟩
  · rcases h with ⟨_, s, hs⟩ | ⟨e, he, _⟩
    · exact absurd hs (hns s)
    · rw [h2] at he; cases he
  · rcases h with ⟨hn, _⟩ | ⟨e2, he, hnf⟩
    · rw [h2] at hn; cases hn
    · rw [h2] at he; cases he
      rw [hf] at hnf; cases hnf

/-- Witness for C3: on the sample controller, whose cache holds
`data.a.allow`, a commit that wrote revision `v2` leaves no entry for it. -/
theorem reload_discards_partials_witness :
    sampleController.findPartial "data.a.allow" = some { id := 1 } ∧
    (sampleController.reload { id := 3 } (Value.str "v2", none)).ctrl.findPartial
      "data.a.allow" = none :=
  ⟨by decide,
   (reload_discards_partials sampleController { id := 3 } (Value.str "v2", none)
      (Or.inl ⟨rfl, "v2", rfl⟩)).2.2 "data.a.allow"⟩

/-- C4: when the revision read yields the string `s`, `reload` returns normally
with revision `s`; when it fails with NotFound, `reload` returns normally with
the revision unchanged. In both cases store, manager, watcher, errLimit,
diagnostics buffer, ID factory and decision callback are unchanged. -/
theorem reload_revision (c : Controller) (txn : Transaction) (s : String) (v : Value)
    (msg : String) :
    (c.reload txn (Value.str s, none)).result = Except.ok () ∧
    (c.reload txn (Value.str s, none)).ctrl.revision = s ∧
    c.sameCollaborators (c.reload txn (Value.str s, none)).ctrl ∧
    (c.reload txn (v, some { notFound := true, msg := msg })).result = Except.ok () ∧
    (c.reload txn (v, some { notFound := true, msg := msg })).ctrl.revision = c.revision ∧
    c.sameCollaborators (c.reload txn (v, some { notFound := true, msg := msg })).ctrl := by
  refine ⟨rfl, rfl, ⟨rfl, rfl, rfl, rfl, rfl, rfl, rfl⟩, ?_, ?_, ?_⟩
  · simp [Controller.reload, StoreError.IsNotFound]
  · simp [Controller.reload, StoreError.IsNotFound]
  · simp [Controller.reload, StoreError.IsNotFound, Controller.sameCollaborators]

/-- C5, as stated, fails: a read that fails with an error other than NotFound
makes `reload` panic with that error, although the read did not succeed. -/
theorem reload_panics_on_other_read_error :
    (sampleController.reload { id := 3 }
        (Value.null, some { notFound := false, msg := "internal error" })).result =
      Except.error (PanicValue.storeError { notFound := false, msg := "internal error" }) := by
  rfl

/-- C5, amended: `reload` panics if and only if the revision read succeeds with
a value that is not a string or fails with an error other than NotFound; it
returns normally if and only if the read succeeds with a string or fails with
NotFound. -/
theorem reload_panics_iff (c : Controller) (txn : Transaction)
    (read : Value × Option StoreError) :
    ((∃ p, (c.reload txn read).result = Except.error p) ↔
      ((read.2 = none ∧ ∀ s, read.1 ≠ Value.str s) ∨
       (∃ e, read.2 = some e ∧ e.IsNotFound = false))) ∧
    ((c.reload txn read).result = Except.ok () ↔
      ((read.2 = none ∧ ∃ s, read.1 = Value.str s) ∨
       (∃ e, read.2 = some e ∧ e.IsNotFound = true))) := by
  rcases reload_cases c txn read with ⟨h2, s, hs, hr⟩ | ⟨e, h2, hn, hr⟩ | ⟨h2, hns, hr⟩ |
    ⟨e, h2, hf, hr⟩
  · rw [hr]
    refine ⟨⟨?_, ?_⟩, ⟨fun _ => Or.inl ⟨h2, s, hs⟩, fun _ => rfl⟩⟩
    · rintro ⟨p, hp⟩; cases hp
    · rintro (⟨_, hns⟩ | ⟨e, he, _⟩)
      · exact absurd hs (hns s)
      · rw [h2] at he; cases he
  · rw [hr]
    refine ⟨⟨?_, ?_⟩, ⟨fun _ => Or.inr ⟨e, h2, hn⟩, fun _ => rfl⟩⟩
    · rintro ⟨p, hp⟩; cases hp
    · rintro (⟨hnone, _⟩ | ⟨e2, he, hf⟩)
      · rw [h2] at hnone; cases hnone
      · rw [h2] at he; cases he
        rw [hn] at hf; cases hf
  · rw [hr]
    refine ⟨⟨fun _ => Or.inl ⟨h2, hns⟩, fun _ => ⟨_, rfl⟩⟩, ⟨?_, ?_⟩⟩
    · intro hp; cases hp
    · rintro (⟨_, s, hs⟩ | ⟨e, he, _⟩)
      · exact absurd hs (hns s)
      · rw [h2] at he; cases he
  · rw [hr]
    refine ⟨⟨fun _ => Or.inr ⟨e, h2, hf⟩, fun _ => ⟨_, rfl⟩⟩, ⟨?_, ?_⟩⟩
    · intro hp; cases hp
    · rintro (⟨hnone, _⟩ | ⟨e2, he, hn⟩)
      · rw [h2] at hnone; cases hnone
      · rw [h2] at he; cases he
        rw [hf] at hn; cases hn

/-! ### Lock discipline of the two hooks -/

/-- The operations of `migrateWatcher` do not depend on how the migration
ends. -/
theorem migrateWatcher_ops (c : Controller) (txn : Transaction)
    (migrate : Option Watcher × Option String) :
    (c.migrateWatcher txn migrate).ops =
      [Op.managerGetCompiler, Op.watcherMigrate txn, Op.setWatcher] := by
  obtain ⟨w, e⟩ := migrate
  cases e <;> rfl

/-- C10, as stated, fails: a reload that reads revision `v2` writes `revision`
and `partials`, and a watcher migration writes `watcher`, with no `Lock` on
`mtx` before the write. -/
theorem hooks_write_outside_lock :
    writesUnderLock (sampleController.reload { id := 3 } (Value.str "v2", none)).ops = false ∧
    writesUnderLock
      (sampleController.migrateWatcher { id := 3 } (some { id := 1 }, none)).ops = false := by
  exact ⟨by decide, by decide⟩

/-- C10, amended: neither `reload` nor `migrateWatcher` performs any operation
on the controller's lock. `reload` performs its read and then, when it goes on
to write, the write of `revision` (if the read gave a string) immediately
followed by the write of `partials`; `migrateWatcher` performs one write, of
`watcher`, after the migration call. -/
theorem hooks_take_no_lock (c : Controller) (txn : Transaction)
    (read : Value × Option StoreError) (migrate : Option Watcher × Option String) :
    (∀ op ∈ (c.reload txn read).ops, op.isLockOp = false) ∧
    (∀ op ∈ (c.migrateWatcher txn migrate).ops, op.isLockOp = false) ∧
    ((c.reload txn read).ops = [Op.storeRead txn revisionPath, Op.setRevision, Op.setPartials] ∨
     (c.reload txn read).ops = [Op.storeRead txn revisionPath, Op.setPartials] ∨
     (c.reload txn read).ops = [Op.storeRead txn revisionPath]) ∧
    (c.migrateWatcher txn migrate).ops =
      [Op.managerGetCompiler, Op.watcherMigrate txn, Op.setWatcher] := by
  have hshape :
      (c.reload txn read).ops =
          [Op.storeRead txn revisionPath, Op.setRevision, Op.setPartials] ∨
      (c.reload txn read).ops = [Op.storeRead txn revisionPath, Op.setPartials] ∨
      (c.reload txn read).ops = [Op.storeRead txn revisionPath] := by
    rcases reload_cases c txn read with ⟨_, _, _, hr⟩ | ⟨_, _, _, hr⟩ | ⟨_, _, hr⟩ |
      ⟨_, _, _, hr⟩
    · left; rw [hr]
    · right; left; rw [hr]
    · right; right; rw [hr]
    · right; right; rw [hr]
  refine ⟨?_, ?_, hshape, migrateWatcher_ops c txn migrate⟩
  · intro op hop
    rcases hshape with h | h | h <;> rw [h] at hop <;> simp at hop <;>
      rcases hop with rfl | rfl | rfl <;> rfl
  · intro op hop
    rw [migrateWatcher_ops] at hop
    simp at hop
    rcases hop with rfl | rfl | rfl <;> rfl

/-! ### Initialisation -/

/-- On the exit paths of `Init` other than a failing `watch.New`, the opened
transaction is closed: aborted when `Register` fails, committed (the call to
`Commit` made) when the watcher is built. -/
theorem Init_closes_unless_watch_fails (c : Controller) (b : InitBehaviour)
    (txn : Transaction) (hopen : b.newTransaction = Except.ok txn)
    (hw : b.register ≠ none ∨ ∃ w, b.watchNew = Except.ok w) :
    closedIn txn (c.Init b).ops = true := by
  unfold Controller.Init
  rw [hopen]
  cases hr : b.register with
  | some e => simp [closedIn]
  | none =>
    rcases hw with hw | ⟨w, hw⟩
    · exact absurd hr hw
    · simp [hw, closedIn]

/-- C1: evaluation of `Init` on a store whose transaction opens and whose
`Register` succeeds while `watch.New` fails. `Init` returns the watcher error,
and the operations it performed contain neither an abort nor a commit of the
transaction it opened; with a failing `Register` instead, the abort is there. -/
theorem Init_leaves_transaction_open_when_watch_fails :
    (sampleController.Init
        { newTransaction := Except.ok { id := 1 }, register := none,
          watchNew := Except.error "watcher closed", commit := none }).result =
      Except.ok (some (CtlError.watch "watcher closed")) ∧
    closedIn { id := 1 }
      (sampleController.Init
        { newTransaction := Except.ok { id := 1 }, register := none,
          watchNew := Except.error "watcher closed", commit := none }).ops = false ∧
    closedIn { id := 1 }
      (sampleController.Init
        { newTransaction := Except.ok { id := 1 },
          register := some { notFound := false, msg := "register failed" },
          watchNew := Except.error "watcher closed", commit := none }).ops = true := by
  exact ⟨rfl, by decide, by decide⟩

/-! ### Query execution -/

/-- The evaluations composed by `TxnExecQuery` and `ExecQuery` agree on store,
compiler, query, parsed input, metrics, instrument flag and tracer. -/
theorem TxnExecQuery_common_settings (c : Controller) (m : Metrics)
    (txn : Option Transaction) (request : QueryRequest) :
    (Controller.TxnExecQuery.rego c m txn request).store =
      (Controller.ExecQuery.rego c m request).store ∧
    (Controller.TxnExecQuery.rego c m txn request).compiler =
      (Controller.ExecQuery.rego c m request).compiler ∧
    (Controller.TxnExecQuery.rego c m txn request).query =
      (Controller.ExecQuery.rego c m request).query ∧
    (Controller.TxnExecQuery.rego c m txn request).parsedInput =
      (Controller.ExecQuery.rego c m request).parsedInput ∧
    (Controller.TxnExecQuery.rego c m txn request).metrics =
      (Controller.ExecQuery.rego c m request).metrics ∧
    (Controller.TxnExecQuery.rego c m txn request).instrument =
      (Controller.ExecQuery.rego c m request).instrument ∧
    (Controller.TxnExecQuery.rego c m txn request).tracer =
      (Controller.ExecQuery.rego c m request).tracer :=
  ⟨rfl, rfl, rfl, rfl, rfl, rfl, rfl⟩

/-- What `TxnExecQuery` leaves unset, for every input: the evaluation it
composes has no transaction and no raw input. -/
theorem TxnExecQuery_unset_settings (c : Controller) (m : Metrics)
    (txn : Option Transaction) (request : QueryRequest) :
    (Controller.TxnExecQuery.rego c m txn request).txn = none ∧
    (Controller.TxnExecQuery.rego c m txn request).rawInput = Value.null :=
  ⟨rfl, rfl⟩

/-- C2: evaluation of `TxnExecQuery` with the caller's transaction 7 and a
request carrying the raw input `alice`. The evaluation composed is bound to no
transaction and carries no raw input, where `ExecQuery` for the same request
carries the raw input `alice`. -/
theorem TxnExecQuery_drops_transaction :
    (Controller.TxnExecQuery.rego sampleController { id := 2 } (some { id := 7 })
        { Query := "x = 1", ParsedInput := none, Instrument := false, Tracer := none,
          Transaction := none, RawInput := Value.str "alice" }).txn = none ∧
    (Controller.TxnExecQuery.rego sampleController { id := 2 } (some { id := 7 })
        { Query := "x = 1", ParsedInput := none, Instrument := false, Tracer := none,
          Transaction := none, RawInput := Value.str "alice" }).rawInput = Value.null ∧
    (Controller.ExecQuery.rego sampleController { id := 2 }
        { Query := "x = 1", ParsedInput := none, Instrument := false, Tracer := none,
          Transaction := none, RawInput := Value.str "alice" }).rawInput = Value.str "alice" :=
  ⟨rfl, rfl, rfl⟩

/-! ### Decision logging -/

/-- C6: with a non-nil decision callback `f`, one call to `Log` makes exactly
one callback call, on a record whose DecisionID, RemoteAddr, Query, Input,
Results, Error and Metrics are the arguments of `Log`, whose Revision is the
logger's and whose Timestamp is the clock reading; after it, the same record is
pushed once to the buffer when the buffer is non-nil, and nothing else happens
when it is nil. -/
theorem Log_calls_callback_once (l : diagnosticsLogger) (f : DecisionLogger) (now : Nat)
    (decisionID remoteAddr query : String) (input : Value) (results : Option Value)
    (err : GoError) (m : Option Metrics) (tracer : Option BufferTracer)
    (hf : l.logger = some f) :
    ∃ info : Info,
      info.DecisionID = decisionID ∧ info.RemoteAddr = remoteAddr ∧ info.Query = query ∧
      info.Input = input ∧ info.Results = results ∧ info.Error = err ∧ info.Metrics = m ∧
      info.Revision = l.revision ∧ info.Timestamp = now ∧ info.Trace = tracer.getD [] ∧
      l.Log now decisionID remoteAddr query input results err m tracer =
        LogEvent.callback f info ::
          (match l.buffer with
           | none => []
           | some b => [LogEvent.push b info]) := by
  cases tracer with
  | none =>
    refine ⟨{ Revision := l.revision, Timestamp := now, DecisionID := decisionID,
              RemoteAddr := remoteAddr, Query := query, Input := input, Results := results,
              Error := err, Metrics := m, Trace := [] },
            rfl, rfl, rfl, rfl, rfl, rfl, rfl, rfl, rfl, rfl, ?_⟩
    cases hb : l.buffer <;> simp [diagnosticsLogger.Log, hf, hb]
  | some t =>
    refine ⟨{ Revision := l.revision, Timestamp := now, DecisionID := decisionID,
              RemoteAddr := remoteAddr, Query := query, Input := input, Results := results,
              Error := err, Metrics := m, Trace := t },
            rfl, rfl, rfl, rfl, rfl, rfl, rfl, rfl, rfl, rfl, ?_⟩
    cases hb : l.buffer <;> simp [diagnosticsLogger.Log, hf, hb]

/-- Witness for C6: a logger with callback 5 and no buffer, logging a failed
decision, makes the single callback call and no push. -/
theorem Log_calls_callback_once_witness :
    ∃ info : Info,
      info.DecisionID = "d-1" ∧ info.Revision = "v1" ∧ info.Results = none ∧
      diagnosticsLogger.Log
          { logger := some { id := 5 }, revision := "v1", explain := false,
            instrument := false, buffer := none }
          100 "d-1" "10.0.0.1" "data.a.allow" Value.null none (GoError.foreign "timeout")
          (some { id := 2 }) none =
        [LogEvent.callback { id := 5 } info] := by
  obtain ⟨info, h1, _, _, _, h5, _, _, h8, _, _, hlog⟩ :=
    Log_calls_callback_once
      { logger := some { id := 5 }, revision := "v1", explain := false,
        instrument := false, buffer := none }
      { id := 5 } 100 "d-1" "10.0.0.1" "data.a.allow" Value.null none
      (GoError.foreign "timeout") (some { id := 2 }) none rfl
  exact ⟨info, h1, h8, h5, hlog⟩

/-! ### Per-request diagnostics settings -/

/-- The value `generateDiagnosticsLogger` returns when the deferred function
has run on a logger with the given buffer, explain and instrument settings. -/
theorem deferred_fields (c : Controller) (l : diagnosticsLogger) :
    (generateDiagnosticsLogger.deferred c l).logger = c.logger ∧
    (generateDiagnosticsLogger.deferred c l).revision = c.revision ∧
    (generateDiagnosticsLogger.deferred c l).buffer = l.buffer ∧
    (generateDiagnosticsLogger.deferred c l).explain = l.explain ∧
    (generateDiagnosticsLogger.deferred c l).instrument = l.instrument :=
  ⟨rfl, rfl, rfl, rfl, rfl⟩

/-- The selected mode is read off the evaluation outcome: whatever breaks one
of the links of `selectsMode` rules every mode out. -/
theorem not_selectsMode (eval : Evaluator) (input : Except String (List (String × Value)))
    (c : Controller) (mode : String)
    (h : ∀ inputMap result e es config,
      c.diagnostics ≠ none →
      input = Except.ok inputMap →
      eval (generateDiagnosticsLogger.rego c inputMap) = ([result], none) →
      result.Expressions = e :: es →
      e.Value = Value.object config →
      mapIndex config "mode" = Value.str mode → False) :
    ¬ selectsMode eval input c mode := by
  rintro ⟨hd, inputMap, result, e, es, config, hi, he, hx, hv, hm⟩
  exact h inputMap result e es config hd hi he hx hv hm

/-- Shape of every outcome of `generateDiagnosticsLogger`: either the deferred
function applied to one of the three literals of the body, the literal being
decided by the selected mode, or the index panic, raised exactly when the
evaluation returned a single result without any expression. -/
theorem generateDiagnosticsLogger_cases (eval : Evaluator)
    (input : Except String (List (String × Value))) (c : Controller) :
    (selectsMode eval input c "on" ∧
      generateDiagnosticsLogger eval input c =
        Except.ok (generateDiagnosticsLogger.deferred c
          { diagnosticsLogger.zero with buffer := c.diagnostics })) ∨
    (selectsMode eval input c "all" ∧
      generateDiagnosticsLogger eval input c =
        Except.ok (generateDiagnosticsLogger.deferred c
          { diagnosticsLogger.zero with
            buffer := c.diagnostics, instrument := true, explain := true })) ∨
    (¬ selectsMode eval input c "on" ∧ ¬ selectsMode eval input c "all" ∧
      generateDiagnosticsLogger eval input c =
        Except.ok (generateDiagnosticsLogger.deferred c diagnosticsLogger.zero)) ∨
    (c.diagnostics ≠ none ∧ ∃ inputMap result,
      input = Except.ok inputMap ∧
      eval (generateDiagnosticsLogger.rego c inputMap) = ([result], none) ∧
      result.Expressions = [] ∧
      generateDiagnosticsLogger eval input c = Except.error PanicValue.indexOutOfRange) := by
  obtain hd | ⟨buf, hd⟩ : c.diagnostics = none ∨ ∃ b, c.diagnostics = some b := by
    cases c.diagnostics <;> simp
  · refine Or.inr (Or.inr (Or.inl ⟨?_, ?_, ?_⟩))
    · exact fun h => h.1 hd
    · exact fun h => h.1 hd
    · simp [generateDiagnosticsLogger, hd]
  cases input with
  | error msg =>
    refine Or.inr (Or.inr (Or.inl ⟨?_, ?_, ?_⟩))
    · apply not_selectsMode; intro _ _ _ _ _ _ hi; cases hi
    · apply not_selectsMode; intro _ _ _ _ _ _ hi; cases hi
    · simp [generateDiagnosticsLogger, hd]
  | ok inputMap =>
    obtain ⟨results, oerr, hout⟩ :
        ∃ results oerr, eval (generateDiagnosticsLogger.rego c inputMap) = (results, oerr) :=
      ⟨_, _, rfl⟩
    cases oerr with
    | some msg =>
      refine Or.inr (Or.inr (Or.inl ⟨?_, ?_, ?_⟩))
      · apply not_selectsMode; intro _ _ _ _ _ _ hi he; cases hi; rw [hout] at he; cases he
      · apply not_selectsMode; intro _ _ _ _ _ _ hi he; cases hi; rw [hout] at he; cases he
      · simp [generateDiagnosticsLogger, hd, hout]
    | none =>
      match results, hout with
      | [], hout =>
        refine Or.inr (Or.inr (Or.inl ⟨?_, ?_, ?_⟩))
        · apply not_selectsMode; intro _ _ _ _ _ _ hi he; cases hi; rw [hout] at he; cases he
        · apply not_selectsMode; intro _ _ _ _ _ _ hi he; cases hi; rw [hout] at he; cases he
        · simp [generateDiagnosticsLogger, hd, hout]
      | _ :: _ :: _, hout =>
        refine Or.inr (Or.inr (Or.inl ⟨?_, ?_, ?_⟩))
        · apply not_selectsMode; intro _ _ _ _ _ _ hi he; cases hi; rw [hout] at he; cases he
        · apply not_selectsMode; intro _ _ _ _ _ _ hi he; cases hi; rw [hout] at he; cases he
        · simp [generateDiagnosticsLogger, hd, hout]
      | [r], hout =>
        obtain hnil | ⟨e0, es0, hexp⟩ :
            r.Expressions = [] ∨ ∃ e0 es0, r.Expressions = e0 :: es0 := by
          cases r.Expressions with
          | nil => exact Or.inl rfl
          | cons a as => exact Or.inr ⟨a, as, rfl⟩
        · exact Or.inr (Or.inr (Or.inr ⟨by rw [hd]; simp, inputMap, r, rfl, hout, hnil,
            by simp [generateDiagnosticsLogger, hd, hout, hnil]⟩))
        -- a value that is not a map, or a map without a string under `mode`
        have notMap : (∀ config, e0.Value ≠ Value.object config) →
            ∀ mode, ¬ selectsMode eval (Except.ok inputMap) c mode := by
          intro hv mode
          apply not_selectsMode
          intro _ _ _ _ config _ hi he hx hval
          cases hi; rw [hout] at he; cases he
          rw [hexp] at hx; cases hx
          exact fun _ => hv config hval
        have notStr : ∀ config, e0.Value = Value.object config →
            (∀ m, mapIndex config "mode" ≠ Value.str m) →
            ∀ mode, ¬ selectsMode eval (Except.ok inputMap) c mode := by
          intro config hcfg hm mode
          apply not_selectsMode
          intro _ _ _ _ config2 _ hi he hx hval hmode
          cases hi; rw [hout] at he; cases he
          rw [hexp] at hx; cases hx
          rw [hcfg] at hval; cases hval
          exact hm mode hmode
        have onlyMode : ∀ config m, e0.Value = Value.object config →
            mapIndex config "mode" = Value.str m →
            ∀ mode, selectsMode eval (Except.ok inputMap) c mode → mode = m := by
          intro config m hcfg hm mode
          rintro ⟨_, _, _, _, _, config2, hi, he, hx, hval, hmode⟩
          cases hi; rw [hout] at he; cases he
          rw [hexp] at hx; cases hx
          rw [hcfg] at hval; cases hval
          rw [hm] at hmode; cases hmode; rfl
        cases hval : e0.Value with
        | object config =>
          cases hmode : mapIndex config "mode" with
          | str m =>
            have hsel : selectsMode eval (Except.ok inputMap) c m :=
              ⟨by rw [hd]; simp, inputMap, r, e0, es0, config, rfl, hout, hexp, hval, hmode⟩
            by_cases hon : m = "on"
            · left
              subst hon
              exact ⟨hsel, by simp [generateDiagnosticsLogger, hd, hout, hexp, hval, hmode]⟩
            · by_cases hall : m = "all"
              · right; left
                subst hall
                exact ⟨hsel, by simp [generateDiagnosticsLogger, hd, hout, hexp, hval, hmode]⟩
              · refine Or.inr (Or.inr (Or.inl ⟨?_, ?_, ?_⟩))
                · exact fun h => hon (onlyMode config m hval hmode _ h).symm
                · exact fun h => hall (onlyMode config m hval hmode _ h).symm
                · simp [generateDiagnosticsLogger, hd, hout, hexp, hval, hmode, hon, hall]
          | null =>
            refine Or.inr (Or.inr (Or.inl ⟨notStr config hval (by rw [hmode]; intro m h; cases h) _,
              notStr config hval (by rw [hmode]; intro m h; cases h) _, ?_⟩))
            simp [generateDiagnosticsLogger, hd, hout, hexp, hval, hmode]
          | bool b =>
            refine Or.inr (Or.inr (Or.inl ⟨notStr config hval (by rw [hmode]; intro m h; cases h) _,
              notStr config hval (by rw [hmode]; intro m h; cases h) _, ?_⟩))
            simp [generateDiagnosticsLogger, hd, hout, hexp, hval, hmode]
          | number n =>
            refine Or.inr (Or.inr (Or.inl ⟨notStr config hval (by rw [hmode]; intro m h; cases h) _,
              notStr config hval (by rw [hmode]; intro m h; cases h) _, ?_⟩))
            simp [generateDiagnosticsLogger, hd, hout, hexp, hval, hmode]
          | array xs =>
            refine Or.inr (Or.inr (Or.inl ⟨notStr config hval (by rw [hmode]; intro m h; cases h) _,
              notStr config hval (by rw [hmode]; intro m h; cases h) _, ?_⟩))
            simp [generateDiagnosticsLogger, hd, hout, hexp, hval, hmode]
          | object kvs =>
            refine Or.inr (Or.inr (Or.inl ⟨notStr config hval (by rw [hmode]; intro m h; cases h) _,
              notStr config hval (by rw [hmode]; intro m h; cases h) _, ?_⟩))
            simp [generateDiagnosticsLogger, hd, hout, hexp, hval, hmode]
        | null =>
          refine Or.inr (Or.inr (Or.inl ⟨notMap (by rw [hval]; intro cfg h; cases h) _,
            notMap (by rw [hval]; intro cfg h; cases h) _, ?_⟩))
          simp [generateDiagnosticsLogger, hd, hout, hexp, hval]
        | bool b =>
          refine Or.inr (Or.inr (Or.inl ⟨notMap (by rw [hval]; intro cfg h; cases h) _,
            notMap (by rw [hval]; intro cfg h; cases h) _, ?_⟩))
          simp [generateDiagnosticsLogger, hd, hout, hexp, hval]
        | number n =>
          refine Or.inr (Or.inr (Or.inl ⟨notMap (by rw [hval]; intro cfg h; cases h) _,
            notMap (by rw [hval]; intro cfg h; cases h) _, ?_⟩))
          simp [generateDiagnosticsLogger, hd, hout, hexp, hval]
        | str t =>
          refine Or.inr (Or.inr (Or.inl ⟨notMap (by rw [hval]; intro cfg h; cases h) _,
            notMap (by rw [hval]; intro cfg h; cases h) _, ?_⟩))
          simp [generateDiagnosticsLogger, hd, hout, hexp, hval]
        | array xs =>
          refine Or.inr (Or.inr (Or.inl ⟨notMap (by rw [hval]; intro cfg h; cases h) _,
            notMap (by rw [hval]; intro cfg h; cases h) _, ?_⟩))
          simp [generateDiagnosticsLogger, hd, hout, hexp, hval]

/-- At most one mode is selected. -/
theorem selectsMode_unique (eval : Evaluator) (input : Except String (List (String × Value)))
    (c : Controller) (m1 m2 : String)
    (h1 : selectsMode eval input c m1) (h2 : selectsMode eval input c m2) : m1 = m2 := by
  obtain ⟨_, im1, r1, e1, es1, cfg1, hi1, he1, hx1, hv1, hm1⟩ := h1
  obtain ⟨_, im2, r2, e2, es2, cfg2, hi2, he2, hx2, hv2, hm2⟩ := h2
  rw [hi1] at hi2; cases hi2
  rw [he1] at he2; cases he2
  rw [hx1] at hx2; cases hx2
  rw [hv1] at hv2; cases hv2
  rw [hm1] at hm2; cases hm2
  rfl

/-- No mode is selected when no buffer is configured, when the input map could
not be built, when the evaluation returned an error, or when it did not return
exactly one result. -/
theorem selectsMode_excluded (eval : Evaluator)
    (input : Except String (List (String × Value))) (c : Controller) (mode : String)
    (h : c.diagnostics = none ∨ (∃ msg, input = Except.error msg) ∨
         (∃ inputMap msg, input = Except.ok inputMap ∧
            (eval (generateDiagnosticsLogger.rego c inputMap)).2 = some msg) ∨
         (∃ inputMap, input = Except.ok inputMap ∧
            (eval (generateDiagnosticsLogger.rego c inputMap)).1.length ≠ 1)) :
    ¬ selectsMode eval input c mode := by
  rintro ⟨hd, im, r, e, es, cfg, hi, he, _, _, _⟩
  rcases h with h | ⟨msg, h⟩ | ⟨im2, msg, h, herr⟩ | ⟨im2, h, hlen⟩
  · exact hd h
  · rw [hi] at h; cases h
  · rw [hi] at h; cases h
    rw [he] at herr; cases herr
  · rw [hi] at h; cases h
    rw [he] at hlen; exact hlen rfl

/-- C7: under the evaluator contract, `generateDiagnosticsLogger` returns a
logger (it does not panic, and it has no error result). Its buffer, explain and
instrument settings are the controller's buffer with both flags off when the
configuration selects mode `on`, the controller's buffer with both flags on
when it selects mode `all`, and no buffer with both flags off in every other
case; the other cases include no buffer configured, input construction
failing, the evaluation returning an error, and a result count other than 1. -/
theorem generateDiagnosticsLogger_settings (eval : Evaluator)
    (input : Except String (List (String × Value))) (c : Controller)
    (hEval : eval.resultsHaveExpressions) :
    ∃ l, generateDiagnosticsLogger eval input c = Except.ok l ∧
      (selectsMode eval input c "on" →
        l.buffer = c.diagnostics ∧ l.explain = false ∧ l.instrument = false) ∧
      (selectsMode eval input c "all" →
        l.buffer = c.diagnostics ∧ l.explain = true ∧ l.instrument = true) ∧
      (¬ selectsMode eval input c "on" → ¬ selectsMode eval input c "all" →
        l.buffer = none ∧ l.explain = false ∧ l.instrument = false) ∧
      ((c.diagnostics = none ∨ (∃ msg, input = Except.error msg) ∨
         (∃ inputMap msg, input = Except.ok inputMap ∧
            (eval (generateDiagnosticsLogger.rego c inputMap)).2 = some msg) ∨
         (∃ inputMap, input = Except.ok inputMap ∧
            (eval (generateDiagnosticsLogger.rego c inputMap)).1.length ≠ 1)) →
        l.buffer = none ∧ l.explain = false ∧ l.instrument = false) := by
  have hne : ("on" : String) ≠ "all" := by decide
  rcases generateDiagnosticsLogger_cases eval input c with
    ⟨hon, hgen⟩ | ⟨hall, hgen⟩ | ⟨hnon, hnall, hgen⟩ | ⟨_, inputMap, r, _, hout, hnil, _⟩
  · refine ⟨_, hgen, fun _ => ⟨rfl, rfl, rfl⟩, ?_, ?_, ?_⟩
    · exact fun hall => absurd (selectsMode_unique eval input c _ _ hon hall) hne
    · exact fun hnon => absurd hon hnon
    · exact fun h => absurd hon (selectsMode_excluded eval input c _ h)
  · refine ⟨_, hgen, ?_, fun _ => ⟨rfl, rfl, rfl⟩, ?_, ?_⟩
    · exact fun hon => absurd (selectsMode_unique eval input c _ _ hon hall) hne
    · exact fun _ hnall => absurd hall hnall
    · exact fun h => absurd hall (selectsMode_excluded eval input c _ h)
  · refine ⟨_, hgen, ?_, ?_, fun _ _ => ⟨rfl, rfl, rfl⟩, fun _ => ⟨rfl, rfl, rfl⟩⟩
    · exact fun hon => absurd hon hnon
    · exact fun hall => absurd hall hnall
  · exact absurd hnil (hEval (generateDiagnosticsLogger.rego c inputMap) r (by rw [hout]; simp))

/-- Witness for C7: on the sample controller, whose buffer is set, an
evaluation returning the single configuration map with mode `all` gives a
logger with the controller's buffer and both flags on. -/
theorem generateDiagnosticsLogger_settings_witness :
    (modeEvaluator "all").resultsHaveExpressions ∧
    selectsMode (modeEvaluator "all") (Except.ok []) sampleController "all" ∧
    ∃ l, generateDiagnosticsLogger (modeEvaluator "all") (Except.ok []) sampleController =
        Except.ok l ∧
      l.buffer = some { id := 0 } ∧ l.explain = true ∧ l.instrument = true := by
  have hE : (modeEvaluator "all").resultsHaveExpressions := by
    intro r result hmem
    simp only [modeEvaluator, List.mem_singleton] at hmem
    subst hmem
    simp
  have hsel : selectsMode (modeEvaluator "all") (Except.ok []) sampleController "all" :=
    ⟨by decide, [], _, _, _, _, rfl, rfl, rfl, rfl, rfl⟩
  obtain ⟨l, hl, _, hall, _⟩ :=
    generateDiagnosticsLogger_settings (modeEvaluator "all") (Except.ok []) sampleController hE
  exact ⟨hE, hsel, l, hl, hall hsel⟩

/-- C8: under the evaluator contract, `generateDiagnosticsLogger` returns a
logger on every path, and the logger returned carries the controller's decision
callback and the controller's revision, also when it is the disabled logger
returned because no buffer is configured or the evaluation failed. -/
theorem generateDiagnosticsLogger_carries_callback (eval : Evaluator)
    (input : Except String (List (String × Value))) (c : Controller)
    (hEval : eval.resultsHaveExpressions) :
    ∃ l, generateDiagnosticsLogger eval input c = Except.ok l ∧
      l.logger = c.logger ∧ l.revision = c.revision := by
  rcases generateDiagnosticsLogger_cases eval input c with
    ⟨_, hgen⟩ | ⟨_, hgen⟩ | ⟨_, _, hgen⟩ | ⟨_, inputMap, r, _, hout, hnil, _⟩
  · exact ⟨_, hgen, rfl, rfl⟩
  · exact ⟨_, hgen, rfl, rfl⟩
  · exact ⟨_, hgen, rfl, rfl⟩
  · exact absurd hnil (hEval (generateDiagnosticsLogger.rego c inputMap) r (by rw [hout]; simp))

/-- Witness for C8: on the sample controller, with a failing evaluation and
with no buffer configured, the logger returned carries callback 5 and revision
`v1`. -/
theorem generateDiagnosticsLogger_carries_callback_witness :
    failingEvaluator.resultsHaveExpressions ∧
    (∃ l, generateDiagnosticsLogger failingEvaluator (Except.ok []) sampleController =
        Except.ok l ∧
      l.logger = some { id := 5 } ∧ l.revision = "v1") ∧
    (∃ l, generateDiagnosticsLogger failingEvaluator (Except.ok [])
          { sampleController with diagnostics := none } = Except.ok l ∧
      l.logger = some { id := 5 } ∧ l.revision = "v1") := by
  have hE : failingEvaluator.resultsHaveExpressions := by
    intro r result hmem
    simp [failingEvaluator] at hmem
  exact ⟨hE,
    generateDiagnosticsLogger_carries_callback failingEvaluator (Except.ok [])
      sampleController hE,
    generateDiagnosticsLogger_carries_callback failingEvaluator (Except.ok [])
      { sampleController with diagnostics := none } hE⟩

end Opa
